import Mathlib

/-!
Shallow embedding of the smart-rom-cache core (src/src/cache/engine.py and
src/src/integration/emulationstation.py) and proofs about it.

The store is modelled as the pair of the sqlite `cache_entries` table (a list
of `CacheEntry` records, `rom_id` being the primary key) and the cache
directory's contents (an association list from file name to byte size).
Python floats are modelled as exact rationals; `int(x)` truncation agrees with
`Int.floor` on every branch the code takes (both round down on positives, and
on non-positive operands both land in the `<= 0` no-op branch of cleanup).
-/

namespace RomCache

/-- The CacheEntry dataclass / one row of the `cache_entries` table
(engine.py lines 19-28).  The `platform` column of the table is written but
never read back into the dataclass; it does not influence any behaviour the
claims mention, so it is not modelled. -/
structure CacheEntry where
  rom_id : String
  filename : String
  size_bytes : Int
  last_accessed : ℚ
  download_time : ℚ
  priority_score : Int
  is_favorite : Bool
deriving DecidableEq, Repr

/-- The CacheConfig dataclass (engine.py lines 30-46); `platforms_priority`
is the dict modelled as an association list on its string keys. -/
structure CacheConfig where
  max_size_gb : ℚ
  cleanup_threshold : ℚ
  min_free_space_gb : ℚ
  favorite_protection : Bool
  platforms_priority : List (String × Int)
deriving DecidableEq, Repr

/-- The persistent state a ROMCacheManager acts on: the metadata index
(the sqlite table) and the files in the cache directory (name, size). -/
structure CacheState where
  index : List CacheEntry
  disk : List (String × Nat)
deriving DecidableEq, Repr

/-- Existence test for a file in the cache directory (Path.exists). -/
def diskHas (d : List (String × Nat)) (name : String) : Bool :=
  d.any (fun f => f.1 == name)

/-- Size of an on-disk file, if present. -/
def diskSize (d : List (String × Nat)) (name : String) : Option Nat :=
  (d.find? (fun f => f.1 == name)).map (fun f => f.2)

/-- Path.unlink: remove a file from the cache directory. -/
def diskRemove (d : List (String × Nat)) (name : String) : List (String × Nat) :=
  d.filter (fun f => f.1 != name)

/-- Create or overwrite a file with the given size. -/
def diskWrite (d : List (String × Nat)) (name : String) (sz : Nat) : List (String × Nat) :=
  (name, sz) :: diskRemove d name

/-- One GiB, 1024^3 bytes, as a rational. -/
def gib : ℚ := 1024 ^ 3

/-- SUM(size_bytes) over the index (engine.py get_cache_stats). -/
def totalSizeBytes (st : CacheState) : Int :=
  (st.index.map (fun e => e.size_bytes)).sum

/-- Field free_space_gb of get_cache_stats (engine.py line 99):
max_size_gb - total_size / 1024^3. -/
def free_space_gb (cfg : CacheConfig) (st : CacheState) : ℚ :=
  cfg.max_size_gb - (totalSizeBytes st : ℚ) / gib

/-- Field usage_percent of get_cache_stats (engine.py lines 91-92):
(total / int(max_size_gb * 1024^3)) * 100, or 0 when that int is not
positive. -/
def usage_percent (cfg : CacheConfig) (st : CacheState) : ℚ :=
  let maxBytes : Int := ⌊cfg.max_size_gb * gib⌋
  if 0 < maxBytes then ((totalSizeBytes st : ℚ) / (maxBytes : ℚ)) * 100 else 0

/-- ROMCacheManager.needs_cleanup (engine.py lines 138-141). -/
def needs_cleanup (cfg : CacheConfig) (st : CacheState) : Bool :=
  usage_percent cfg st > cfg.cleanup_threshold * 100

/-- ROMCacheManager.is_cached (engine.py lines 102-105): it tests whether the
blob path `cache_dir / rom_id` exists on disk; the metadata index is not
consulted. -/
def is_cached (st : CacheState) (rom_id : String) : Bool :=
  diskHas st.disk rom_id

/-- Truthiness of the optional `platform` argument: Python `if platform`
is false for None and for the empty string. -/
def platformTruthy : Option String → Bool
  | none => false
  | some p => p != ""

/-- Dict lookup in platforms_priority. -/
def lookupPriority (m : List (String × Int)) (p : String) : Option Int :=
  (m.find? (fun kv => kv.1 == p)).map (fun kv => kv.2)

/-- ROMCacheManager.calculate_priority_score (engine.py lines 111-136),
with the wall clock passed in as `now` (the code reads time.time()). -/
def calculate_priority_score (cfg : CacheConfig) (now : ℚ) (entry : CacheEntry)
    (platform : Option String) : Int :=
  let s0 : Int := 0
  let s1 : Int :=
    match platform with
    | none => s0
    | some p =>
      if p != "" then
        match lookupPriority cfg.platforms_priority p with
        | some w => s0 + w * 10
        | none => s0
      else s0
  let hours : ℚ := (now - entry.last_accessed) / 3600
  let s2 : Int := if hours < 24 then s1 + 50 else if hours < 168 then s1 + 20 else s1
  let s3 : Int := if entry.is_favorite then s2 + 100 else s2
  let s4 : Int :=
    if entry.size_bytes < 100 * 1024 * 1024 then s3 + 10
    else if entry.size_bytes > 5 * 1024 ^ 3 then s3 - 10
    else s3
  s4

/-- The spec's formula for the priority score (spec.md section 4.2):
platformPriority.get(platform, 0) * 10 plus the recency, favorite and size
terms.  `get` with default 0 on an absent key. -/
def platformGet (m : List (String × Int)) (platform : Option String) : Int :=
  match platform with
  | none => 0
  | some p => (lookupPriority m p).getD 0

/-- Priority score exactly as spec.md section 4.2 writes it. -/
def priority_score_spec (cfg : CacheConfig) (now : ℚ) (entry : CacheEntry)
    (platform : Option String) : Int :=
  platformGet cfg.platforms_priority platform * 10
  + (if (now - entry.last_accessed) / 3600 < 24 then 50
     else if (now - entry.last_accessed) / 3600 < 168 then 20
     else 0)
  + (if entry.is_favorite then 100 else 0)
  + (if entry.size_bytes < 100 * 1024 * 1024 then 10
     else if entry.size_bytes > 5 * 1024 ^ 3 then -10
     else 0)

/-- The ORDER BY relation of the cleanup query (engine.py line 156):
priority_score ASC, then last_accessed ASC. -/
def entryRel (a b : CacheEntry) : Prop :=
  a.priority_score < b.priority_score ∨
    (a.priority_score = b.priority_score ∧ a.last_accessed ≤ b.last_accessed)

instance : DecidableRel entryRel := fun a b => by
  unfold entryRel; infer_instance

/-- The rows delivered by the cleanup SELECT, in ORDER BY order. -/
def sortedEntries (l : List CacheEntry) : List CacheEntry :=
  l.insertionSort entryRel

/-- Deletion of a row by primary key (DELETE FROM cache_entries WHERE
rom_id = ?). -/
def indexDelete (l : List CacheEntry) (rid : String) : List CacheEntry :=
  l.filter (fun x => x.rom_id != rid)

/-- The body of the cleanup loop (engine.py lines 166-187): walk rows in
ORDER BY order; skip protected favorites; if the blob file exists, unlink it,
record the rom id, add the row's size_bytes to the freed total, delete the
row, and stop once the freed total reaches the goal. -/
def cleanupLoop (cfg : CacheConfig) (btf : Int) :
    List CacheEntry → CacheState → Int → List String → CacheState × List String
  | [], st, _, removed => (st, removed.reverse)
  | e :: rest, st, freed, removed =>
    if e.is_favorite && cfg.favorite_protection then
      cleanupLoop cfg btf rest st freed removed
    else if diskHas st.disk e.rom_id then
      if freed + e.size_bytes ≥ btf then
        ({ index := indexDelete st.index e.rom_id, disk := diskRemove st.disk e.rom_id },
         (e.rom_id :: removed).reverse)
      else
        cleanupLoop cfg btf rest
          { index := indexDelete st.index e.rom_id, disk := diskRemove st.disk e.rom_id }
          (freed + e.size_bytes) (e.rom_id :: removed)
    else
      cleanupLoop cfg btf rest st freed removed

/-- Line 160 of engine.py: bytes_to_free = int((target_free_gb -
free_space_gb) * 1024^3), modelled with `Int.floor`; floor and Python's
toward-zero truncation take the same branch of cleanup and agree on every
positive value. -/
def bytes_to_free (cfg : CacheConfig) (target_free_gb : ℚ) (st : CacheState) : Int :=
  ⌊(target_free_gb - free_space_gb cfg st) * gib⌋

/-- ROMCacheManager.cleanup_cache (engine.py lines 143-192) with the target
passed explicitly (the Python default is config.min_free_space_gb). -/
def cleanup_cache (cfg : CacheConfig) (target_free_gb : ℚ) (st : CacheState) :
    CacheState × List String :=
  if bytes_to_free cfg target_free_gb st ≤ 0 then (st, [])
  else cleanupLoop cfg (bytes_to_free cfg target_free_gb st) (sortedEntries st.index) st 0 []

/-- Cleanup as spec.md section 4.2 steps 1-4 word it: same ordering and
favorite skip, but every non-protected candidate in order is removed (blob
deleted, record removed, size accumulated, id appended) with no check that
the blob file is present, stopping once the accumulated bytes reach the
goal. -/
def cleanupSpecLoop (cfg : CacheConfig) (btf : Int) :
    List CacheEntry → CacheState → Int → List String → CacheState × List String
  | [], st, _, removed => (st, removed.reverse)
  | e :: rest, st, freed, removed =>
    if e.is_favorite && cfg.favorite_protection then
      cleanupSpecLoop cfg btf rest st freed removed
    else
      if freed + e.size_bytes ≥ btf then
        ({ index := indexDelete st.index e.rom_id, disk := diskRemove st.disk e.rom_id },
         (e.rom_id :: removed).reverse)
      else
        cleanupSpecLoop cfg btf rest
          { index := indexDelete st.index e.rom_id, disk := diskRemove st.disk e.rom_id }
          (freed + e.size_bytes) (e.rom_id :: removed)

/-- Cleanup written from the spec's words: bytesToFree = (targetFreeGB -
currentFreeGB) * 2^30; if not positive, a no-op returning the empty list;
otherwise the greedy pass of `cleanupSpecLoop` over the rows in ascending
(priorityScore, lastAccessed) order. -/
def cleanupSpec (cfg : CacheConfig) (target_free_gb : ℚ) (st : CacheState) :
    CacheState × List String :=
  if bytes_to_free cfg target_free_gb st ≤ 0 then (st, [])
  else cleanupSpecLoop cfg (bytes_to_free cfg target_free_gb st) (sortedEntries st.index) st 0 []

/-- Position of the dot that starts the suffix of a path name, per pathlib:
the last dot, provided it is neither the first nor the last character
(a leading dot marks a hidden file, a trailing dot is no suffix). -/
def suffixStart (s : String) : Option Nat :=
  ((List.range s.toList.length).filter
    (fun i => decide (1 ≤ i ∧ i + 1 < s.toList.length) && (s.toList.get? i == some '.'))).getLast?

/-- Path.with_suffix applied with ".tmp" (engine.py line 226): replaces an
existing suffix, appends otherwise. -/
def withSuffixTmp (s : String) : String :=
  match suffixStart s with
  | some i => (s.toList.take i).asString ++ ".tmp"
  | none => s ++ ".tmp"

/-- Outcomes of the exceptions add_to_cache can raise: raise_for_status on a
bad response, the "Not enough space" Exception, and an error while streaming
the body. -/
inductive CacheError where
  | httpError
  | insufficientSpace
  | transferFailed
deriving DecidableEq, Repr

/-- Observable behaviour of one `requests.get(source_url, stream=True)`
transfer: whether raise_for_status passes, the parsed Content-Length header
(`int(headers.get('content-length', 0))`, so 0 when absent), whether
iterating the body raises midway, how many bytes were written before such a
failure, and the total bytes of a completed body. -/
structure Download where
  ok : Bool
  advertised : Nat
  transferFails : Bool
  bytesBeforeFail : Nat
  body : Nat
deriving DecidableEq, Repr

/-- The `except` block of add_to_cache (engine.py lines 258-262): if the
FINAL cache path exists it is unlinked (note: the temporary file is not),
then the exception propagates. -/
def failCleanup (rid : String) (s : CacheState) (e : CacheError) :
    CacheState × Except CacheError Bool :=
  (if diskHas s.disk rid then { s with disk := diskRemove s.disk rid } else s,
   Except.error e)

/-- The pre-flight space check of add_to_cache (engine.py lines 212-223):
available = (max_size_gb - total_size_gb) * 1024^3; if the advertised size
exceeds it, run cleanup_cache(file_size/1024^3 + min_free_space_gb) and
re-check; the Bool is false when space is still insufficient (the code then
raises). -/
def spaceCheck (cfg : CacheConfig) (file_size : Int) (st : CacheState) :
    CacheState × Bool :=
  let available : ℚ := (cfg.max_size_gb - (totalSizeBytes st : ℚ) / gib) * gib
  if (file_size : ℚ) > available then
    let st' := (cleanup_cache cfg ((file_size : ℚ) / gib + cfg.min_free_space_gb) st).1
    let available' : ℚ := (cfg.max_size_gb - (totalSizeBytes st' : ℚ) / gib) * gib
    if (file_size : ℚ) > available' then (st', false) else (st', true)
  else (st, true)

/-- INSERT OR REPLACE keyed on the primary key rom_id. -/
def upsert (l : List CacheEntry) (e : CacheEntry) : List CacheEntry :=
  e :: indexDelete l e.rom_id

/-- ROMCacheManager.add_to_cache (engine.py lines 194-262), state-passing:
proactive cleanup when needs_cleanup; GET with raise_for_status; file_size
taken from the Content-Length header; pre-flight space check (with one
cleanup retry); stream to `with_suffix('.tmp')`; rename onto the final path;
insert the row with size_bytes = file_size and priority score computed at
`now`.  Every exception goes through `failCleanup`. -/
def add_to_cache (cfg : CacheConfig) (now : ℚ) (rid fname : String)
    (platform : Option String) (dl : Download) (st0 : CacheState) :
    CacheState × Except CacheError Bool :=
  let st := if needs_cleanup cfg st0 then (cleanup_cache cfg cfg.min_free_space_gb st0).1 else st0
  if !dl.ok then failCleanup rid st CacheError.httpError
  else
    let file_size : Int := (dl.advertised : Int)
    match spaceCheck cfg file_size st with
    | (st1, false) => failCleanup rid st1 CacheError.insufficientSpace
    | (st1, true) =>
      let tempName := withSuffixTmp rid
      if dl.transferFails then
        let st2 : CacheState := { st1 with disk := diskWrite st1.disk tempName dl.bytesBeforeFail }
        failCleanup rid st2 CacheError.transferFailed
      else
        let st2 : CacheState := { st1 with disk := diskWrite st1.disk tempName dl.body }
        let st3 : CacheState := { st2 with disk := diskWrite (diskRemove st2.disk tempName) rid dl.body }
        let entry : CacheEntry :=
          { rom_id := rid, filename := fname, size_bytes := file_size,
            last_accessed := now, download_time := now, priority_score := 0,
            is_favorite := false }
        let pscore := calculate_priority_score cfg now entry platform
        let st4 : CacheState := { st3 with index := upsert st3.index { entry with priority_score := pscore } }
        (st4, Except.ok true)

/-- ROMCacheManager.mark_accessed (engine.py lines 264-274). -/
def mark_accessed (now : ℚ) (st : CacheState) (rid : String) : CacheState :=
  { st with index := st.index.map (fun e => if e.rom_id == rid then { e with last_accessed := now } else e) }

/-- State the EmulationStationIntegration object acts on: the cache store
plus the `downloading_roms` registry of in-flight rom ids (its keys; the
per-id threading.Event carries no further modelled state). -/
structure IntegrationState where
  cache : CacheState
  downloading : List String
deriving DecidableEq, Repr

/-- What one call to handle_rom_access does besides its state update. -/
inductive AccessAction where
  | cacheHit
  | joinedExisting
  | dispatched (targetPath : String)
  | dispatchFailed
deriving DecidableEq, Repr

/-- The string-valued local names bound in handle_rom_access
(emulationstation.py lines 362-390) at the point the thread argument tuple
`(rom_id, target_path, download_event)` is evaluated: the parameters
`rom_id` and `symlink_path` (besides `self` and the Event `download_event`).
No assignment in the function binds a name `target_path`; there is no such
module-level name either, so Python name resolution for it fails. -/
def handleRomAccessEnv (rom_id symlink_path : String) : List (String × String) :=
  [("rom_id", rom_id), ("symlink_path", symlink_path)]

/-- EmulationStationIntegration.handle_rom_access (emulationstation.py lines
362-396): cache hit touches recency and returns; an id already in
`downloading_roms` waits on its event and returns; otherwise the caller
registers an event under the lock and tries to start the download thread with
args `(rom_id, target_path, download_event)` — resolving the name
`target_path` in the local environment.  When resolution fails (NameError),
the except branch sets the event and pops the registration; no thread
starts. -/
def handle_rom_access (now : ℚ) (st : IntegrationState) (rom_id symlink_path : String) :
    IntegrationState × AccessAction :=
  if is_cached st.cache rom_id then
    ({ st with cache := mark_accessed now st.cache rom_id }, AccessAction.cacheHit)
  else if st.downloading.contains rom_id then
    (st, AccessAction.joinedExisting)
  else
    let downloading' := rom_id :: st.downloading
    match (handleRomAccessEnv rom_id symlink_path).find? (fun kv => kv.1 == "target_path") with
    | some kv => ({ st with downloading := downloading' }, AccessAction.dispatched kv.2)
    | none =>
      ({ st with downloading := downloading'.filter (fun r => r != rom_id) },
       AccessAction.dispatchFailed)

/-- Invariant check from spec.md section 3: every index record's blob exists
on disk with exactly size_bytes bytes. -/
def blobIndexInvariant (st : CacheState) : Bool :=
  st.index.all (fun e => diskSize st.disk e.rom_id == some e.size_bytes.toNat)

/-- A 50 GB configuration mirroring the CacheConfig defaults. -/
def cfgDemo : CacheConfig := ⟨50, 9/10, 5, true, []⟩

/-- The empty store: no index rows, no files. -/
def emptyState : CacheState := ⟨[], []⟩

/-- A successful transfer whose response carries no Content-Length header
(so the parsed header value is 0) and whose body is 5 bytes. -/
def dlNoLength : Download := ⟨true, 0, false, 0, 5⟩

/-- A transfer that dies midway: 3 bytes were written to the temp file
before the body iteration raised. -/
def dlFailMid : Download := ⟨true, 0, true, 3, 0⟩

/-- A download whose GET fails raise_for_status immediately. -/
def dlHttpFail : Download := ⟨false, 0, false, 0, 0⟩

/-- An index record paired with its 3-byte blob. -/
def entryA : CacheEntry := ⟨"a", "a.bin", 3, 0, 0, 0, false⟩

/-- A store satisfying the blob/index invariant for its single entry. -/
def stPaired : CacheState := ⟨[entryA], [("a", 3)]⟩

/-- A store holding only an orphan blob left by a crash: the file exists but
no index record does. -/
def orphanState : CacheState := ⟨[], [("orphan", 7)]⟩

/-- A 4 GB configuration for the cleanup scenarios. -/
def cfgClean : CacheConfig := ⟨4, 9/10, 1, true, []⟩

/-- A favorite 1 GiB entry, most recently touched. -/
def entryFav : CacheEntry := ⟨"f", "f.bin", 1073741824, 5, 0, 0, true⟩

/-- A non-favorite 1 GiB entry, touched earlier. -/
def entryOld : CacheEntry := ⟨"g", "g.bin", 1073741824, 1, 0, 0, false⟩

/-- Both entries with both blobs on disk. -/
def stTwo : CacheState := ⟨[entryFav, entryOld], [("f", 1073741824), ("g", 1073741824)]⟩

/-- An index record whose blob is missing from disk. -/
def entryMiss : CacheEntry := ⟨"m", "m.bin", 1073741824, 0, 0, 0, false⟩

/-- A store with one dangling record ("m") and one fully present entry. -/
def stMiss : CacheState := ⟨[entryMiss, entryOld], [("g", 1073741824)]⟩

/-- A configuration whose platform-priority dict maps the empty string to
weight 1. -/
def cfgEmptyKey : CacheConfig := ⟨50, 9/10, 5, true, [("", 1)]⟩

/-- A small non-favorite entry accessed at time 0. -/
def entryZero : CacheEntry := ⟨"e", "e", 0, 0, 0, 0, false⟩

instance {e a : Type} [DecidableEq e] [DecidableEq a] : DecidableEq (Except e a) := fun
  | Except.ok x, Except.ok y =>
    if h : x = y then Decidable.isTrue (by rw [h])
    else Decidable.isFalse (fun hc => h (Except.ok.inj hc))
  | Except.error x, Except.error y =>
    if h : x = y then Decidable.isTrue (by rw [h])
    else Decidable.isFalse (fun hc => h (Except.error.inj hc))
  | Except.ok _, Except.error _ => Decidable.isFalse (fun hc => Except.noConfusion hc)
  | Except.error _, Except.ok _ => Decidable.isFalse (fun hc => Except.noConfusion hc)

attribute [local semireducible] Rat.mul Rat.add Rat.sub Rat.inv Rat.ofScientific

lemma diskHas_true_iff {d : List (String × Nat)} {m : String} :
    diskHas d m = true ↔ ∃ f ∈ d, f.1 = m := by
  simp [diskHas]

lemma mem_diskRemove {d : List (String × Nat)} {n : String} {f : String × Nat} :
    f ∈ diskRemove d n ↔ f ∈ d ∧ f.1 ≠ n := by
  simp [diskRemove]

lemma mem_indexDelete {l : List CacheEntry} {rid : String} {x : CacheEntry} :
    x ∈ indexDelete l rid ↔ x ∈ l ∧ x.rom_id ≠ rid := by
  simp [indexDelete]

lemma diskHas_of_diskRemove {d : List (String × Nat)} {n m : String}
    (h : diskHas (diskRemove d n) m = true) : diskHas d m = true := by
  rcases diskHas_true_iff.mp h with ⟨f, hf, hfm⟩
  exact diskHas_true_iff.mpr ⟨f, (mem_diskRemove.mp hf).1, hfm⟩

lemma diskHas_diskRemove_of_ne {d : List (String × Nat)} {n m : String} (h : m ≠ n) :
    diskHas (diskRemove d n) m = diskHas d m := by
  by_cases hd : diskHas d m = true
  · rw [hd]
    rcases diskHas_true_iff.mp hd with ⟨f, hf, hfm⟩
    exact diskHas_true_iff.mpr ⟨f, mem_diskRemove.mpr ⟨hf, by rw [hfm]; exact h⟩, hfm⟩
  · have h2 : ¬ diskHas (diskRemove d n) m = true := fun hc => hd (diskHas_of_diskRemove hc)
    rw [Bool.not_eq_true] at hd h2
    rw [hd, h2]

lemma diskHas_diskRemove_false {d : List (String × Nat)} {n m : String}
    (h : diskHas d m = false) : diskHas (diskRemove d n) m = false := by
  have h2 : ¬ diskHas (diskRemove d n) m = true := fun hc => by
    simp [diskHas_of_diskRemove hc] at h
  rwa [Bool.not_eq_true] at h2

lemma cleanupLoop_eq_specLoop (cfg : CacheConfig) (btf : Int) :
    ∀ (rows : List CacheEntry) (st : CacheState) (freed : Int) (removed : List String),
      (∀ r ∈ rows, diskHas st.disk r.rom_id = true) →
      (rows.map (fun r => r.rom_id)).Nodup →
      cleanupLoop cfg btf rows st freed removed = cleanupSpecLoop cfg btf rows st freed removed := by
  intro rows
  induction rows with
  | nil => intro st freed removed _ _; rfl
  | cons e rest ih =>
    intro st freed removed hdisk hnodup
    rw [List.map_cons, List.nodup_cons] at hnodup
    have hde : diskHas st.disk e.rom_id = true := hdisk e (List.mem_cons_self _ _)
    simp only [cleanupLoop, cleanupSpecLoop]
    by_cases hfav : (e.is_favorite && cfg.favorite_protection) = true
    · rw [if_pos hfav, if_pos hfav]
      exact ih st freed removed (fun r hr => hdisk r (List.mem_cons_of_mem _ hr)) hnodup.2
    · rw [if_neg hfav, if_neg hfav, if_pos hde]
      by_cases hge : freed + e.size_bytes ≥ btf
      · rw [if_pos hge, if_pos hge]
      · rw [if_neg hge, if_neg hge]
        apply ih
        · intro r hr
          have hne : r.rom_id ≠ e.rom_id := fun hc =>
            hnodup.1 (hc ▸ List.mem_map_of_mem (fun x => x.rom_id) hr)
          show diskHas (diskRemove st.disk e.rom_id) r.rom_id = true
          rw [diskHas_diskRemove_of_ne hne]
          exact hdisk r (List.mem_cons_of_mem _ hr)
        · exact hnodup.2

/-- C3: when the store satisfies the blob/index invariant (every index row's
blob is on disk) and the index keys are distinct (the rom_id PRIMARY KEY),
cleanup_cache computes exactly the spec's procedure: bytesToFree =
(targetFreeGB - currentFreeGB) * 2^30, a no-op returning the empty list when
that is not positive, and otherwise the greedy ascending
(priorityScore, lastAccessed) pass that removes non-protected candidates in
order and stops as soon as the freed bytes reach bytesToFree. -/
theorem C3_cleanup_refines_spec (cfg : CacheConfig) (t : ℚ) (st : CacheState)
    (hdisk : ∀ e ∈ st.index, diskHas st.disk e.rom_id = true)
    (hkeys : (st.index.map (fun e => e.rom_id)).Nodup) :
    cleanup_cache cfg t st = cleanupSpec cfg t st := by
  unfold cleanup_cache cleanupSpec
  by_cases hb : bytes_to_free cfg t st ≤ 0
  · rw [if_pos hb, if_pos hb]
  · rw [if_neg hb, if_neg hb]
    apply cleanupLoop_eq_specLoop
    · intro r hr
      exact hdisk r ((List.perm_insertionSort entryRel st.index).subset hr)
    · exact (((List.perm_insertionSort entryRel st.index).map (fun e => e.rom_id)).nodup_iff).mpr hkeys

/-- Witness for C3 at a concrete store: two 1 GiB entries with blobs on
disk, distinct keys, target 4 GB free. -/
theorem C3_cleanup_refines_spec_witness :
    (∀ e ∈ stTwo.index, diskHas stTwo.disk e.rom_id = true) ∧
    (stTwo.index.map (fun e => e.rom_id)).Nodup ∧
    cleanup_cache cfgClean 4 stTwo = cleanupSpec cfgClean 4 stTwo :=
  ⟨by decide, by decide, C3_cleanup_refines_spec cfgClean 4 stTwo (by decide) (by decide)⟩

lemma cleanupLoop_protects_key (cfg : CacheConfig) (btf : Int) (k : String)
    (hprot : cfg.favorite_protection = true) :
    ∀ (rows : List CacheEntry) (st : CacheState) (freed : Int) (removed : List String),
      (∀ r ∈ rows, r.rom_id = k → r.is_favorite = true) →
      (∀ x ∈ st.index, x.rom_id = k → x ∈ (cleanupLoop cfg btf rows st freed removed).1.index) ∧
      (diskHas st.disk k = true → diskHas (cleanupLoop cfg btf rows st freed removed).1.disk k = true) ∧
      (k ∉ removed → k ∉ (cleanupLoop cfg btf rows st freed removed).2) := by
  intro rows
  induction rows with
  | nil =>
    intro st freed removed _
    refine ⟨fun x hx _ => hx, fun h => h, fun hk => ?_⟩
    simp only [cleanupLoop, List.mem_reverse]
    exact hk
  | cons e rest ih =>
    intro st freed removed hrows
    simp only [cleanupLoop]
    by_cases hfav : (e.is_favorite && cfg.favorite_protection) = true
    · rw [if_pos hfav]
      exact ih st freed removed (fun r hr => hrows r (List.mem_cons_of_mem _ hr))
    · have hef : e.is_favorite = false := by
        cases hef : e.is_favorite
        · rfl
        · exact absurd (by simp [hef, hprot]) hfav
      have hek : e.rom_id ≠ k := fun hc => by
        have := hrows e (List.mem_cons_self _ _) hc
        rw [hef] at this
        exact Bool.false_ne_true this
      rw [if_neg hfav]
      by_cases hd : diskHas st.disk e.rom_id = true
      · rw [if_pos hd]
        by_cases hge : freed + e.size_bytes ≥ btf
        · rw [if_pos hge]
          refine ⟨fun x hx hxk => ?_, fun h => ?_, fun hk => ?_⟩
          · exact mem_indexDelete.mpr ⟨hx, by rw [hxk]; exact fun hc => hek hc.symm⟩
          · show diskHas (diskRemove st.disk e.rom_id) k = true
            rw [diskHas_diskRemove_of_ne (fun hc => hek hc.symm)]
            exact h
          · show k ∉ (e.rom_id :: removed).reverse
            simp only [List.mem_reverse, List.mem_cons]
            rintro (hc | hc)
            · exact hek hc.symm
            · exact hk hc
        · rw [if_neg hge]
          have hrec := ih
            { index := indexDelete st.index e.rom_id, disk := diskRemove st.disk e.rom_id }
            (freed + e.size_bytes) (e.rom_id :: removed)
            (fun r hr => hrows r (List.mem_cons_of_mem _ hr))
          refine ⟨fun x hx hxk => ?_, fun h => ?_, fun hk => ?_⟩
          · exact hrec.1 x (mem_indexDelete.mpr ⟨hx, by rw [hxk]; exact fun hc => hek hc.symm⟩) hxk
          · apply hrec.2.1
            show diskHas (diskRemove st.disk e.rom_id) k = true
            rw [diskHas_diskRemove_of_ne (fun hc => hek hc.symm)]
            exact h
          · apply hrec.2.2
            simp only [List.mem_cons]
            rintro (hc | hc)
            · exact hek hc.symm
            · exact hk hc
      · rw [if_neg hd]
        exact ih st freed removed (fun r hr => hrows r (List.mem_cons_of_mem _ hr))

/-- C4: with favoriteProtection on and the index keys distinct (the rom_id
PRIMARY KEY), a favorite entry survives every cleanup_cache call: its index
record remains, its blob is never unlinked, and its rom id never appears in
the returned removed list, whatever the free-space target. -/
theorem C4_favorite_protected (cfg : CacheConfig) (t : ℚ) (st : CacheState) (e : CacheEntry)
    (hprot : cfg.favorite_protection = true)
    (hkeys : (st.index.map (fun x => x.rom_id)).Nodup)
    (he : e ∈ st.index) (hfav : e.is_favorite = true) :
    e ∈ (cleanup_cache cfg t st).1.index ∧
    (diskHas st.disk e.rom_id = true → diskHas (cleanup_cache cfg t st).1.disk e.rom_id = true) ∧
    e.rom_id ∉ (cleanup_cache cfg t st).2 := by
  unfold cleanup_cache
  by_cases hb : bytes_to_free cfg t st ≤ 0
  · rw [if_pos hb]
    exact ⟨he, fun h => h, by simp⟩
  · rw [if_neg hb]
    have hrows : ∀ r ∈ sortedEntries st.index, r.rom_id = e.rom_id → r.is_favorite = true := by
      intro r hr hrk
      have hrmem : r ∈ st.index := (List.perm_insertionSort entryRel st.index).subset hr
      have hre : r = e := List.inj_on_of_nodup_map hkeys hrmem he hrk
      rw [hre]
      exact hfav
    have h := cleanupLoop_protects_key cfg (bytes_to_free cfg t st) e.rom_id hprot
      (sortedEntries st.index) st 0 [] hrows
    exact ⟨h.1 e he rfl, h.2.1, h.2.2 (by simp)⟩

/-- Witness for C4: the favorite 1 GiB entry of the concrete two-entry store
survives a cleanup whose target exceeds all non-favorite bytes. -/
theorem C4_favorite_protected_witness :
    cfgClean.favorite_protection = true ∧
    (stTwo.index.map (fun x => x.rom_id)).Nodup ∧
    entryFav ∈ stTwo.index ∧ entryFav.is_favorite = true ∧
    (entryFav ∈ (cleanup_cache cfgClean 4 stTwo).1.index ∧
     (diskHas stTwo.disk entryFav.rom_id = true →
       diskHas (cleanup_cache cfgClean 4 stTwo).1.disk entryFav.rom_id = true) ∧
     entryFav.rom_id ∉ (cleanup_cache cfgClean 4 stTwo).2) :=
  ⟨by decide, by decide, by decide, by decide,
   C4_favorite_protected cfgClean 4 stTwo entryFav (by decide) (by decide) (by decide) (by decide)⟩

lemma cleanupLoop_removed_had_blob (cfg : CacheConfig) (btf : Int) :
    ∀ (rows : List CacheEntry) (st : CacheState) (freed : Int) (removed : List String),
      ∀ r ∈ (cleanupLoop cfg btf rows st freed removed).2,
        r ∈ removed ∨ diskHas st.disk r = true := by
  intro rows
  induction rows with
  | nil =>
    intro st freed removed r hr
    simp only [cleanupLoop, List.mem_reverse] at hr
    exact Or.inl hr
  | cons e rest ih =>
    intro st freed removed r hr
    simp only [cleanupLoop] at hr
    by_cases hfav : (e.is_favorite && cfg.favorite_protection) = true
    · rw [if_pos hfav] at hr
      exact ih st freed removed r hr
    · rw [if_neg hfav] at hr
      by_cases hd : diskHas st.disk e.rom_id = true
      · rw [if_pos hd] at hr
        by_cases hge : freed + e.size_bytes ≥ btf
        · rw [if_pos hge] at hr
          simp only [List.mem_reverse, List.mem_cons] at hr
          rcases hr with hc | hc
          · exact Or.inr (hc ▸ hd)
          · exact Or.inl hc
        · rw [if_neg hge] at hr
          rcases ih _ _ _ r hr with hc | hc
          · rcases List.mem_cons.mp hc with h1 | h1
            · exact Or.inr (h1 ▸ hd)
            · exact Or.inl h1
          · exact Or.inr (diskHas_of_diskRemove hc)
      · rw [if_neg hd] at hr
        exact ih st freed removed r hr

lemma cleanupLoop_keeps_missing (cfg : CacheConfig) (btf : Int) (k : String) :
    ∀ (rows : List CacheEntry) (st : CacheState) (freed : Int) (removed : List String),
      diskHas st.disk k = false →
      ∀ x ∈ st.index, x.rom_id = k → x ∈ (cleanupLoop cfg btf rows st freed removed).1.index := by
  intro rows
  induction rows with
  | nil => intro st freed removed _ x hx _; exact hx
  | cons e rest ih =>
    intro st freed removed hmiss x hx hxk
    simp only [cleanupLoop]
    by_cases hfav : (e.is_favorite && cfg.favorite_protection) = true
    · rw [if_pos hfav]
      exact ih st freed removed hmiss x hx hxk
    · rw [if_neg hfav]
      by_cases hd : diskHas st.disk e.rom_id = true
      · have hek : e.rom_id ≠ k := fun hc => by
          rw [hc, hmiss] at hd
          exact Bool.false_ne_true hd
        rw [if_pos hd]
        by_cases hge : freed + e.size_bytes ≥ btf
        · rw [if_pos hge]
          exact mem_indexDelete.mpr ⟨hx, by rw [hxk]; exact fun hc => hek hc.symm⟩
        · rw [if_neg hge]
          exact ih _ _ _ (diskHas_diskRemove_false hmiss) x
            (mem_indexDelete.mpr ⟨hx, by rw [hxk]; exact fun hc => hek hc.symm⟩) hxk
      · rw [if_neg hd]
        exact ih st freed removed hmiss x hx hxk

/-- C10: cleanup_cache leaves an index record whose blob file is absent
completely untouched: the record stays in the index, its id is not reported,
and every reported id corresponds to a blob that existed on disk when the
call began (so a missing blob's size_bytes is never part of the freed
total). -/
theorem C10_missing_blob_untouched (cfg : CacheConfig) (t : ℚ) (st : CacheState) (e : CacheEntry)
    (he : e ∈ st.index) (hmiss : diskHas st.disk e.rom_id = false) :
    e ∈ (cleanup_cache cfg t st).1.index ∧
    e.rom_id ∉ (cleanup_cache cfg t st).2 ∧
    ∀ r ∈ (cleanup_cache cfg t st).2, diskHas st.disk r = true := by
  unfold cleanup_cache
  by_cases hb : bytes_to_free cfg t st ≤ 0
  · rw [if_pos hb]
    exact ⟨he, by simp, by simp⟩
  · rw [if_neg hb]
    have hblob := cleanupLoop_removed_had_blob cfg (bytes_to_free cfg t st)
      (sortedEntries st.index) st 0 []
    have hkeep := cleanupLoop_keeps_missing cfg (bytes_to_free cfg t st) e.rom_id
      (sortedEntries st.index) st 0 [] hmiss
    refine ⟨hkeep e he rfl, fun hc => ?_, fun r hr => ?_⟩
    · rcases hblob e.rom_id hc with h | h
      · simp at h
      · rw [hmiss] at h
        exact Bool.false_ne_true h
    · rcases hblob r hr with h | h
      · simp at h
      · exact h

/-- Witness for C10: the record "m" with no blob survives a cleanup that
removes the fully-present entry "g". -/
theorem C10_missing_blob_untouched_witness :
    entryMiss ∈ stMiss.index ∧ diskHas stMiss.disk entryMiss.rom_id = false ∧
    (entryMiss ∈ (cleanup_cache cfgClean 4 stMiss).1.index ∧
     entryMiss.rom_id ∉ (cleanup_cache cfgClean 4 stMiss).2 ∧
     ∀ r ∈ (cleanup_cache cfgClean 4 stMiss).2, diskHas stMiss.disk r = true) :=
  ⟨by decide, by decide, C10_missing_blob_untouched cfgClean 4 stMiss entryMiss (by decide) (by decide)⟩

/-- C5 counterexample: with a platform-priority dict containing the empty
string as a key with weight 1, the code's score for platform "" differs from
the spec formula platformPriority.get(platform, 0) * 10 + ..., because
Python's `if platform` treats "" as absent: the code yields 60, the spec
formula 70. -/
theorem C5_counterexample_empty_platform :
    calculate_priority_score cfgEmptyKey 0 entryZero (some "") ≠
      priority_score_spec cfgEmptyKey 0 entryZero (some "") := by decide

/-- C5 amended: calculate_priority_score returns exactly the spec's
recency + favorite + size terms, but its platform term is
platformPriority.get(platform, 0) * 10 only for a truthy (present,
non-empty) platform; an absent or empty platform contributes 0 even when
the mapping has a matching key. -/
theorem C5_amended_score (cfg : CacheConfig) (now : ℚ) (entry : CacheEntry)
    (platform : Option String) :
    calculate_priority_score cfg now entry platform =
      (if platformTruthy platform then platformGet cfg.platforms_priority platform else 0) * 10
      + (if (now - entry.last_accessed) / 3600 < 24 then 50
         else if (now - entry.last_accessed) / 3600 < 168 then 20 else 0)
      + (if entry.is_favorite then 100 else 0)
      + (if entry.size_bytes < 100 * 1024 * 1024 then 10
         else if entry.size_bytes > 5 * 1024 ^ 3 then -10 else 0) := by
  unfold calculate_priority_score platformTruthy platformGet
  cases platform with
  | none =>
    dsimp only
    split_ifs <;> ring
  | some p =>
    dsimp only
    rcases lookupPriority cfg.platforms_priority p with _ | w
    · dsimp only [Option.getD_none]
      split_ifs <;> ring
    · dsimp only [Option.getD_some]
      split_ifs <;> ring

/-- C1 (code bug): a successful add_to_cache whose response has no
Content-Length (parsed as 0) but a 5-byte body leaves isCached true and an
index record, yet records size_bytes = 0 (the advertised header) while the
blob on disk holds 5 bytes — the recorded size comes from the header, not
from the transfer, so it differs from the blob's on-disk size. -/
theorem C1_size_recorded_from_header :
    (add_to_cache cfgDemo 0 "r" "r.bin" none dlNoLength emptyState).2 = Except.ok true ∧
    is_cached (add_to_cache cfgDemo 0 "r" "r.bin" none dlNoLength emptyState).1 "r" = true ∧
    ((add_to_cache cfgDemo 0 "r" "r.bin" none dlNoLength emptyState).1.index.find?
      (fun e => e.rom_id == "r")).map (fun e => e.size_bytes) = some 0 ∧
    diskSize (add_to_cache cfgDemo 0 "r" "r.bin" none dlNoLength emptyState).1.disk "r" = some 5 ∧
    ((add_to_cache cfgDemo 0 "r" "r.bin" none dlNoLength emptyState).1.index.find?
        (fun e => e.rom_id == "r")).map (fun e => e.size_bytes) ≠
      (diskSize (add_to_cache cfgDemo 0 "r" "r.bin" none dlNoLength emptyState).1.disk "r").map
        (fun n => (n : Int)) := by decide

/-- C2 (code bug): when the transfer dies after the temporary file was
created (3 bytes written), add_to_cache propagates the failure but the
except block unlinks the final cache path (which does not exist) instead of
the temp path, so the temporary file survives with its partial 3 bytes. -/
theorem C2_temp_file_survives_failure :
    (add_to_cache cfgDemo 0 "r" "r.bin" none dlFailMid emptyState).2 =
      Except.error CacheError.transferFailed ∧
    diskSize (add_to_cache cfgDemo 0 "r" "r.bin" none dlFailMid emptyState).1.disk
      (withSuffixTmp "r") = some 3 := by decide

/-- C6 (code bug): is_cached consults only filesystem existence, so an
orphan blob with no index record makes it return true, while the claim
requires index membership to decide the answer (and hence false here). -/
theorem C6_is_cached_ignores_index :
    is_cached orphanState "orphan" = true ∧ orphanState.index = [] := by decide

/-- C7 (code bug): starting from a store satisfying the blob/index
invariant, a failed re-download of the already-cached rom "a" (GET fails
raise_for_status) completes with the invariant broken: the except block
unlinks the existing blob while the index record for "a" survives, leaving
a dangling record. -/
theorem C7_blob_and_index_diverge :
    blobIndexInvariant stPaired = true ∧
    (add_to_cache cfgDemo 0 "a" "a.bin" none dlHttpFail stPaired).2 =
      Except.error CacheError.httpError ∧
    blobIndexInvariant (add_to_cache cfgDemo 0 "a" "a.bin" none dlHttpFail stPaired).1 = false ∧
    entryA ∈ (add_to_cache cfgDemo 0 "a" "a.bin" none dlHttpFail stPaired).1.index ∧
    diskHas (add_to_cache cfgDemo 0 "a" "a.bin" none dlHttpFail stPaired).1.disk "a" = false := by
  decide

/-- C9 (code bug): an access to an uncached, not-in-flight rom never
dispatches the background download task at all — the thread argument tuple
names `target_path`, which is bound nowhere in handle_rom_access, so the
NameError is caught, the handle is released, and no task receives any path;
the state is left exactly as it was. -/
theorem C9_background_task_never_dispatched :
    handle_rom_access 0 ⟨emptyState, []⟩ "nes_mario" "roms/nes/Mario.nes" =
      (⟨emptyState, []⟩, AccessAction.dispatchFailed) := by decide

lemma filter_bne_of_not_mem (rid : String) (l : List String) (h : rid ∉ l) :
    l.filter (fun r => r != rid) = l :=
  List.filter_eq_self.mpr (fun a ha => by
    have hne : a ≠ rid := fun hc => h (hc ▸ ha)
    simpa using hne)

/-- C8 (code bug): for every state in which the rom is neither cached nor
already downloading, the caller that registers the DownloadHandle — the one
caller the claim says performs the single network transfer — always takes
the dispatch-failure path: the thread argument tuple references the unbound
name `target_path`, the NameError is caught, the handle is set and removed,
and no download (hence no network transfer) ever starts; the registry is
left unchanged. -/
theorem C8_sole_downloader_never_transfers (now : ℚ) (st : IntegrationState) (rid p : String)
    (hcached : is_cached st.cache rid = false)
    (hdl : st.downloading.contains rid = false) :
    (handle_rom_access now st rid p).2 = AccessAction.dispatchFailed ∧
    (handle_rom_access now st rid p).1 = st := by
  have hnc : ¬ is_cached st.cache rid = true := by
    rw [hcached]
    exact Bool.false_ne_true
  have hnd : ¬ st.downloading.contains rid = true := by
    rw [hdl]
    exact Bool.false_ne_true
  have hmem : rid ∉ st.downloading := by simpa using hdl
  unfold handle_rom_access
  rw [if_neg hnc, if_neg hnd]
  refine ⟨rfl, ?_⟩
  show ({ st with downloading := (rid :: st.downloading).filter (fun r => r != rid) } :
    IntegrationState) = st
  have h1 : (rid :: st.downloading).filter (fun r => r != rid) = st.downloading := by
    rw [List.filter_cons]
    simp only [bne_self_eq_false, Bool.false_eq_true, if_false]
    exact filter_bne_of_not_mem rid st.downloading hmem
  rw [h1]

/-- Witness for C8 at a concrete uncached state. -/
theorem C8_sole_downloader_never_transfers_witness :
    is_cached (⟨emptyState, []⟩ : IntegrationState).cache "snes_zelda" = false ∧
    (⟨emptyState, []⟩ : IntegrationState).downloading.contains "snes_zelda" = false ∧
    ((handle_rom_access 0 ⟨emptyState, []⟩ "snes_zelda" "roms/snes/Zelda.sfc").2 =
        AccessAction.dispatchFailed ∧
     (handle_rom_access 0 ⟨emptyState, []⟩ "snes_zelda" "roms/snes/Zelda.sfc").1 =
        (⟨emptyState, []⟩ : IntegrationState)) :=
  ⟨by decide, by decide,
   C8_sole_downloader_never_transfers 0 ⟨emptyState, []⟩ "snes_zelda" "roms/snes/Zelda.sfc"
     (by decide) (by decide)⟩

end RomCache
